import Mathlib

/-!
Formal model of the remote-desk application core, shallowly embedded from the
Rust sources, together with theorems settling the stated properties of its
specification.  Machine integers are modelled as `Nat` with explicit `% 2^w`
where wrap-around matters; fallible operations return `Except` or `Option`;
external collaborators (bincode serialization, the image codec library, the
Argon2 password oracle, randomness) are modelled as explicit parameters.
-/

set_option maxHeartbeats 1000000

namespace RemoteDesk

/-! ## Typed framed substreams (src/network/stream.rs)

Bytes are modelled as natural numbers below 256, a byte stream as a `List Nat`
whose end marks EOF of the substream. -/

/-- Maximum message size (10 MB), `MAX_MESSAGE_SIZE` in src/network/stream.rs. -/
def MAX_MESSAGE_SIZE : Nat := 10 * 1024 * 1024

/-- Length prefix size (4 bytes for u32). -/
def LENGTH_PREFIX_SIZE : Nat := 4

/-- Error type for stream operations, from `enum StreamError`.
The `Io` variant is omitted: it only wraps an external OS error. -/
inductive StreamError where
  | serialization (msg : String)
  | deserialization (msg : String)
  | writeError (msg : String)
  | readError (msg : String)
  | streamClosed
  | messageTooLarge (size maxSize : Nat)
  | channelClosed
deriving DecidableEq, Repr

/-- The big-endian 4-byte encoding `(size as u32).to_be_bytes()`. -/
def toBE32 (n : Nat) : List Nat :=
  [n / 2 ^ 24 % 256, n / 2 ^ 16 % 256, n / 2 ^ 8 % 256, n % 256]

/-- `u32::from_be_bytes` on a 4-byte list (any other shape yields 0,
unreachable in the code since exactly 4 bytes are read). -/
def fromBE32 (b : List Nat) : Nat :=
  match b with
  | [b0, b1, b2, b3] => ((b0 * 256 + b1) * 256 + b2) * 256 + b3
  | _ => 0

theorem toBE32_length (n : Nat) : (toBE32 n).length = 4 := rfl

theorem fromBE32_toBE32 {n : Nat} (h : n < 2 ^ 32) : fromBE32 (toBE32 n) = n := by
  simp only [toBE32, fromBE32]
  omega

/-- A serialization scheme for a message type `T`, standing for the external
bincode collaborator (`bincode::serialize` / `bincode::deserialize`, both of
which return a `Result`). -/
structure Codec (T : Type) where
  serialize : T → Except String (List Nat)
  deserialize : List Nat → Except String T

variable {T : Type}

/-- `StreamSender::send`: serializes, rejects oversize messages before writing,
then writes the 4-byte big-endian length prefix followed by the body.  The
result pairs the returned value of the call with the bytes actually written to
the substream (empty on the error paths, which all precede the writes). -/
def StreamSender.send (c : Codec T) (msg : T) : Except StreamError Nat × List Nat :=
  match c.serialize msg with
  | .error e => (.error (.serialization e), [])
  | .ok data =>
    if data.length > MAX_MESSAGE_SIZE then
      (.error (.messageTooLarge data.length MAX_MESSAGE_SIZE), [])
    else
      (.ok (data.length + LENGTH_PREFIX_SIZE), toBE32 data.length ++ data)

/-- `StreamReceiver::read_exact`: reads exactly `len` bytes from the stream,
returning them with the unconsumed remainder; a clean EOF before `len` bytes
are available surfaces as `StreamClosed`. -/
def readExact (len : Nat) (stream : List Nat) :
    Except StreamError (List Nat × List Nat) :=
  if stream.length < len then .error .streamClosed
  else .ok (stream.take len, stream.drop len)

/-- `StreamReceiver::recv`: reads the 4-byte length prefix, rejects lengths
over the cap before reading the body, then reads exactly `length` bytes and
deserializes them. -/
def StreamReceiver.recv (c : Codec T) (stream : List Nat) :
    Except StreamError (T × List Nat) :=
  match readExact LENGTH_PREFIX_SIZE stream with
  | .error e => .error e
  | .ok (lenBytes, rest) =>
    let len := fromBE32 lenBytes
    if len > MAX_MESSAGE_SIZE then
      .error (.messageTooLarge len MAX_MESSAGE_SIZE)
    else
      match readExact len rest with
      | .error e => .error e
      | .ok (data, rest2) =>
        match c.deserialize data with
        | .ok msg => .ok (msg, rest2)
        | .error e => .error (.deserialization e)

theorem readExact_append (l rest : List Nat) :
    readExact l.length (l ++ rest) = .ok (l, rest) := by
  unfold readExact
  rw [if_neg (by simp)]
  simp

/-- C2.  Length-prefixed framing round-trips: when `serialize m` has at most
10 MiB, `send` writes the big-endian length prefix followed by the body and
reports `size + 4` bytes, and `recv` on those bytes followed by any suffix of
the stream yields `m` back, leaving the suffix unconsumed.  The bincode
round-trip `deserialize (serialize m) = m` is a property of the external
serializer and is taken as a hypothesis. -/
theorem framing_roundtrip (c : Codec T) (m : T) (data rest : List Nat)
    (hser : c.serialize m = .ok data)
    (hlen : data.length ≤ MAX_MESSAGE_SIZE)
    (hde : c.deserialize data = .ok m) :
    (StreamSender.send c m).2 = toBE32 data.length ++ data ∧
    (StreamSender.send c m).1 = .ok (data.length + LENGTH_PREFIX_SIZE) ∧
    StreamReceiver.recv c ((StreamSender.send c m).2 ++ rest) = .ok (m, rest) := by
  have hsend : StreamSender.send c m
      = (.ok (data.length + LENGTH_PREFIX_SIZE), toBE32 data.length ++ data) := by
    unfold StreamSender.send
    rw [hser]
    dsimp only
    rw [if_neg (Nat.not_lt.mpr hlen)]
  refine ⟨by rw [hsend], by rw [hsend], ?_⟩
  rw [hsend]
  unfold StreamReceiver.recv
  have h4 : readExact LENGTH_PREFIX_SIZE ((toBE32 data.length ++ data) ++ rest)
      = .ok (toBE32 data.length, data ++ rest) := by
    have := readExact_append (toBE32 data.length) (data ++ rest)
    rw [toBE32_length] at this
    simpa using this
  rw [h4]
  dsimp only
  have hlt : data.length < 2 ^ 32 := by
    have : MAX_MESSAGE_SIZE < 2 ^ 32 := by decide
    omega
  rw [fromBE32_toBE32 hlt]
  rw [if_neg (Nat.not_lt.mpr hlen)]
  rw [readExact_append data rest]
  dsimp only
  rw [hde]

/-- A concrete single-byte codec for naturals below 256, used to witness the
framing theorems on an actual message. -/
def natByteCodec : Codec Nat where
  serialize := fun n => .ok [n % 256]
  deserialize := fun l =>
    match l with
    | [b] => .ok b
    | _ => .error "expected exactly one byte"

theorem framing_roundtrip_witness :
    (StreamSender.send natByteCodec 42).2 = toBE32 1 ++ [42] ∧
    (StreamSender.send natByteCodec 42).1 = .ok (1 + LENGTH_PREFIX_SIZE) ∧
    StreamReceiver.recv natByteCodec ((StreamSender.send natByteCodec 42).2 ++ [7])
      = .ok (42, [7]) := by
  have h := framing_roundtrip natByteCodec 42 [42] [7] (by rfl) (by decide) (by rfl)
  simpa using h

/-- C8.  Oversize handling: a message whose serialization exceeds 10 MiB makes
`send` fail with `MessageTooLarge{size, max}` with no bytes written to the
substream, and a received length prefix exceeding the cap makes `recv` fail
with `MessageTooLarge` without reading the body — the error fires for every
continuation of the stream after the prefix, including an empty one. -/
theorem stream_message_too_large (c : Codec T) (m : T) (data : List Nat)
    (hser : c.serialize m = .ok data)
    (hbig : MAX_MESSAGE_SIZE < data.length)
    (len : Nat) (hl1 : MAX_MESSAGE_SIZE < len) (hl2 : len < 2 ^ 32)
    (rest : List Nat) :
    StreamSender.send c m
      = (.error (.messageTooLarge data.length MAX_MESSAGE_SIZE), []) ∧
    StreamReceiver.recv c (toBE32 len ++ rest)
      = .error (.messageTooLarge len MAX_MESSAGE_SIZE) := by
  constructor
  · unfold StreamSender.send
    rw [hser]
    dsimp only
    rw [if_pos hbig]
  · unfold StreamReceiver.recv
    have h4 : readExact LENGTH_PREFIX_SIZE (toBE32 len ++ rest)
        = .ok (toBE32 len, rest) := by
      have := readExact_append (toBE32 len) rest
      rw [toBE32_length] at this
      simpa using this
    rw [h4]
    dsimp only
    rw [fromBE32_toBE32 hl2]
    rw [if_pos hl1]

/-- A codec whose serialization of the unit message is one byte over the cap. -/
def oversizeCodec : Codec Unit where
  serialize := fun _ => .ok (List.replicate (MAX_MESSAGE_SIZE + 1) 0)
  deserialize := fun _ => .error "not used"

theorem stream_message_too_large_witness :
    StreamSender.send oversizeCodec ()
      = (.error (.messageTooLarge (List.replicate (MAX_MESSAGE_SIZE + 1) 0).length
          MAX_MESSAGE_SIZE), []) ∧
    StreamReceiver.recv oversizeCodec (toBE32 (MAX_MESSAGE_SIZE + 1) ++ [])
      = .error (.messageTooLarge (MAX_MESSAGE_SIZE + 1) MAX_MESSAGE_SIZE) := by
  have h := stream_message_too_large oversizeCodec ()
    (List.replicate (MAX_MESSAGE_SIZE + 1) 0) (by rfl)
    (by simp) (MAX_MESSAGE_SIZE + 1) (by omega) (by decide) []
  exact h

/-! ## Session state machine (src/session/state.rs) -/

/-- Possible states for a remote desktop session, `enum SessionState`. -/
inductive SessionState where
  | idle
  | connecting
  | authenticating
  | active
  | paused
  | disconnecting
  | disconnected
deriving DecidableEq, Repr

/-- The `fmt::Display` rendering of a session state. -/
def SessionState.display : SessionState → String
  | .idle => "Idle"
  | .connecting => "Connecting"
  | .authenticating => "Authenticating"
  | .active => "Active"
  | .paused => "Paused"
  | .disconnecting => "Disconnecting"
  | .disconnected => "Disconnected"

/-- `SessionState::valid_transitions`: the transition table. -/
def SessionState.validTransitions : SessionState → List SessionState
  | .idle => [.connecting, .disconnected]
  | .connecting => [.authenticating, .disconnecting, .disconnected]
  | .authenticating => [.active, .disconnecting, .disconnected]
  | .active => [.paused, .disconnecting, .disconnected]
  | .paused => [.active, .disconnecting, .disconnected]
  | .disconnecting => [.disconnected]
  | .disconnected => []

/-- The relevant variant of `enum SessionError` (src/error.rs): an invalid
state transition, carrying the `Display` strings of the two states. -/
inductive SessionError where
  | invalidStateTransition (f t : String)
deriving DecidableEq, Repr

/-- Record of a state transition (`struct StateTransition`); the `Instant`
timestamp is outside the model. -/
structure StateTransition where
  f : SessionState
  t : SessionState
deriving DecidableEq, Repr

/-- `struct SessionStateMachine` without the `Instant` timestamp field. -/
structure SessionStateMachine where
  current : SessionState
  history : List StateTransition
  maxHistory : Nat
deriving DecidableEq, Repr

/-- `SessionStateMachine::new`: Idle, empty history, max history 100. -/
def SessionStateMachine.new : SessionStateMachine :=
  { current := .idle, history := [], maxHistory := 100 }

/-- `SessionStateMachine::with_max_history`. -/
def SessionStateMachine.withMaxHistory (m : Nat) : SessionStateMachine :=
  { current := .idle, history := [], maxHistory := m }

/-- `SessionStateMachine::can_transition`. -/
def SessionStateMachine.canTransition (sm : SessionStateMachine)
    (b : SessionState) : Bool :=
  sm.current.validTransitions.contains b

/-- History push followed by the trim `if len > max_history { remove(0) }`. -/
def pushTrim (h : List StateTransition) (tr : StateTransition) (maxH : Nat) :
    List StateTransition :=
  let h2 := h ++ [tr]
  if h2.length > maxH then h2.drop 1 else h2

/-- `SessionStateMachine::transition`, as a function from the machine to the
call's result paired with the machine afterwards (`&mut self` made explicit);
on the error path the machine is returned unchanged. -/
def SessionStateMachine.transition (sm : SessionStateMachine)
    (b : SessionState) : Except SessionError Unit × SessionStateMachine :=
  if ! sm.canTransition b then
    (.error (.invalidStateTransition sm.current.display b.display), sm)
  else
    (.ok (), { current := b,
               history := pushTrim sm.history ⟨sm.current, b⟩ sm.maxHistory,
               maxHistory := sm.maxHistory })

/-- `SessionStateMachine::force_transition` (bypasses validation). -/
def SessionStateMachine.forceTransition (sm : SessionStateMachine)
    (b : SessionState) : SessionStateMachine :=
  { current := b,
    history := pushTrim sm.history ⟨sm.current, b⟩ sm.maxHistory,
    maxHistory := sm.maxHistory }

/-- One call against the state machine: checked or forced. -/
inductive SessionOp where
  | trans (b : SessionState)
  | force (b : SessionState)
deriving DecidableEq, Repr

/-- Runs a sequence of transition and force_transition calls. -/
def runOps (sm : SessionStateMachine) : List SessionOp → SessionStateMachine
  | [] => sm
  | .trans b :: rest => runOps (sm.transition b).2 rest
  | .force b :: rest => runOps (sm.forceTransition b) rest

theorem pushTrim_length_le {h : List StateTransition} {tr : StateTransition}
    {maxH : Nat} (hh : h.length ≤ maxH) :
    (pushTrim h tr maxH).length ≤ maxH := by
  unfold pushTrim
  by_cases hc : (h ++ [tr]).length > maxH
  · rw [if_pos hc]
    simp at hc ⊢
    omega
  · rw [if_neg hc]
    simp at hc ⊢
    omega

theorem runOps_history_le {sm : SessionStateMachine}
    (hh : sm.history.length ≤ sm.maxHistory) (ops : List SessionOp) :
    (runOps sm ops).history.length ≤ (runOps sm ops).maxHistory := by
  induction ops generalizing sm with
  | nil => exact hh
  | cons op rest ih =>
    cases op with
    | trans b =>
      show (runOps (sm.transition b).2 rest).history.length ≤ _
      apply ih
      unfold SessionStateMachine.transition
      by_cases hc : (! sm.canTransition b) = true
      · rw [if_pos hc]; exact hh
      · rw [if_neg hc]
        exact pushTrim_length_le hh
    | force b =>
      show (runOps (sm.forceTransition b) rest).history.length ≤ _
      apply ih
      exact pushTrim_length_le hh

theorem contains_validTransitions_iff (a b : SessionState) :
    (a.validTransitions.contains b = true) ↔ b ∈ a.validTransitions := by
  simp [List.contains, List.elem_eq_mem]

/-- C3.  Safety of the session state machine: (1) every transition actually
taken through `transition` follows the transition table — a successful call
moves along a listed edge; (2) `Disconnected` has no outgoing edge; (3) the
history length never exceeds `max_history` after any sequence of `transition`
and `force_transition` calls, both for the default machine (max 100) and for
any custom `with_max_history` machine. -/
theorem session_state_machine_safety :
    (∀ (sm : SessionStateMachine) (b : SessionState) (r : Unit)
        (sm2 : SessionStateMachine),
        sm.transition b = (.ok r, sm2) → b ∈ sm.current.validTransitions) ∧
    SessionState.disconnected.validTransitions = [] ∧
    (∀ (m : Nat) (ops : List SessionOp),
        (runOps (SessionStateMachine.withMaxHistory m) ops).history.length ≤ m) ∧
    (∀ ops : List SessionOp,
        (runOps SessionStateMachine.new ops).history.length ≤ 100) := by
  have hmax : ∀ (ops : List SessionOp) (sm : SessionStateMachine),
      (runOps sm ops).maxHistory = sm.maxHistory := by
    intro ops
    induction ops with
    | nil => intro sm; rfl
    | cons op rest ih =>
      intro sm
      cases op with
      | trans b =>
        show (runOps (sm.transition b).2 rest).maxHistory = _
        rw [ih]
        unfold SessionStateMachine.transition
        by_cases hc : (! sm.canTransition b) = true
        · rw [if_pos hc]
        · rw [if_neg hc]
      | force b =>
        show (runOps (sm.forceTransition b) rest).maxHistory = _
        rw [ih]
        rfl
  refine ⟨?_, rfl, ?_, ?_⟩
  · intro sm b r sm2 heq
    unfold SessionStateMachine.transition at heq
    by_cases hc : (! sm.canTransition b) = true
    · rw [if_pos hc] at heq
      exact absurd (congrArg Prod.fst heq) (by simp)
    · have hc2 : sm.canTransition b = true := by
        cases h : sm.canTransition b
        · rw [h] at hc; simp at hc
        · rfl
      exact (contains_validTransitions_iff sm.current b).mp hc2
  · intro m ops
    have h := @runOps_history_le (SessionStateMachine.withMaxHistory m)
      (by simp [SessionStateMachine.withMaxHistory]) ops
    rw [hmax ops (SessionStateMachine.withMaxHistory m)] at h
    exact h
  · intro ops
    have h := @runOps_history_le SessionStateMachine.new
      (by simp [SessionStateMachine.new]) ops
    rw [hmax ops SessionStateMachine.new] at h
    exact h

theorem session_state_machine_safety_witness :
    SessionState.connecting ∈ SessionState.idle.validTransitions ∧
    (runOps SessionStateMachine.new
      [.trans .connecting, .force .active, .trans .paused]).history.length ≤ 100 := by
  constructor
  · exact session_state_machine_safety.1 SessionStateMachine.new .connecting ()
      ((SessionStateMachine.new.transition .connecting).2) rfl
  · exact session_state_machine_safety.2.2.2
      [.trans .connecting, .force .active, .trans .paused]

/-- C4.  An attempt at a non-listed edge fails with
`InvalidStateTransition{from, to}` (the two states rendered by `Display`) and
leaves the machine — current state and history — unchanged; in particular
`transition(Active)` from the fresh Idle machine returns
`InvalidStateTransition{from:"Idle", to:"Active"}` and the machine stays
as created. -/
theorem invalid_transition_rejected (sm : SessionStateMachine)
    (b : SessionState) (h : b ∉ sm.current.validTransitions) :
    sm.transition b
        = (.error (.invalidStateTransition sm.current.display b.display), sm) ∧
    SessionStateMachine.new.transition .active
        = (.error (.invalidStateTransition "Idle" "Active"),
           SessionStateMachine.new) := by
  constructor
  · unfold SessionStateMachine.transition
    have hc : (! sm.canTransition b) = true := by
      cases h2 : sm.canTransition b
      · rfl
      · exact absurd ((contains_validTransitions_iff sm.current b).mp h2) h
    rw [if_pos hc]
  · rfl

theorem invalid_transition_rejected_witness :
    SessionStateMachine.new.transition .active
        = (.error (.invalidStateTransition
            SessionStateMachine.new.current.display SessionState.active.display),
           SessionStateMachine.new) ∧
    SessionStateMachine.new.transition .active
        = (.error (.invalidStateTransition "Idle" "Active"),
           SessionStateMachine.new) :=
  invalid_transition_rejected SessionStateMachine.new .active (by decide)

/-! ## Frame decoder statistics (src/desktop/decoder.rs)

`DecoderStats.avg_decode_time_ms` and the running `decode_time_total_ms` are
`f64` floating point and outside the model; no claim depends on them. -/

def U32_MOD : Nat := 2 ^ 32

def U64_MOD : Nat := 2 ^ 64

/-- `struct DecoderStats` (without the floating-point average field). -/
structure DecoderStats where
  framesDecoded : Nat
  framesDropped : Nat
  bytesReceived : Nat
  bytesDecoded : Nat
  lastSequence : Nat
  outOfOrderFrames : Nat
deriving DecidableEq, Repr

/-- `DecoderStats::default()`: all counters zero. -/
def DecoderStats.zero : DecoderStats := ⟨0, 0, 0, 0, 0, 0⟩

/-- The statistics-relevant state of `struct FrameDecoder`: the expected
sequence number and the stats block. -/
structure FrameDecoderState where
  expectedSequence : Nat
  stats : DecoderStats
deriving DecidableEq, Repr

/-- `FrameDecoder::new`: expected sequence starts at 1, zero stats. -/
def FrameDecoderState.new : FrameDecoderState := ⟨1, .zero⟩

/-- `FrameDecoder::update_stats` on a successful decode of a frame with the
given sequence, dimensions and compressed byte count.  Counter widths follow
the source: `bytes_decoded` adds `(width * height * 4) as u64` computed in
u32 arithmetic, and the expected sequence is a u64. -/
def updateStatsOk (st : FrameDecoderState) (sequence width height dataLen : Nat) :
    FrameDecoderState :=
  let expected := st.expectedSequence
  let s1 : DecoderStats :=
    { st.stats with
      framesDecoded := st.stats.framesDecoded + 1,
      bytesReceived := st.stats.bytesReceived + dataLen,
      bytesDecoded := st.stats.bytesDecoded + width * height * 4 % U32_MOD }
  let s2 : DecoderStats :=
    if sequence ≠ expected ∧ sequence ≠ 0 then
      { s1 with outOfOrderFrames := s1.outOfOrderFrames + 1 }
    else s1
  { expectedSequence := (sequence + 1) % U64_MOD,
    stats := { s2 with lastSequence := sequence } }

/-- `FrameDecoder::update_stats` on a failed decode: only the drop counter
moves. -/
def updateStatsErr (st : FrameDecoderState) : FrameDecoderState :=
  { st with stats := { st.stats with
      framesDropped := st.stats.framesDropped + 1 } }

/-- Runs the decoder statistics over a list of successfully decoded frames,
each given as (sequence, width, height, data length). -/
def decodeRun (st : FrameDecoderState) :
    List (Nat × Nat × Nat × Nat) → FrameDecoderState
  | [] => st
  | (s, w, h, len) :: rest => decodeRun (updateStatsOk st s w h len) rest

/-- C5, counterexample.  The claim says the counter is incremented exactly
when the frame's sequence differs from the expected sequence and
expected ≠ 0.  Decoding a frame with sequence 0 on a fresh decoder
(expected = 1) satisfies that condition, yet the counter stays at 0:
the source guards on `sequence != 0`, not on `expected != 0`. -/
theorem decoder_out_of_order_guard_counterexample :
    (updateStatsOk FrameDecoderState.new 0 1 1 4).stats.outOfOrderFrames = 0 ∧
    (0 : Nat) ≠ FrameDecoderState.new.expectedSequence ∧
    FrameDecoderState.new.expectedSequence ≠ 0 := by
  refine ⟨by decide, by decide, by decide⟩

/-- The specification-side count: one per frame whose sequence differs from
the running expected value and is itself nonzero, the expected value
advancing to sequence + 1 (mod 2^64) each step. -/
def specOutOfOrderCount : Nat → List Nat → Nat
  | _, [] => 0
  | e, s :: rest =>
      (if s ≠ e ∧ s ≠ 0 then 1 else 0)
        + specOutOfOrderCount ((s + 1) % U64_MOD) rest

theorem updateStatsOk_outOfOrder (st : FrameDecoderState)
    (s w h len : Nat) :
    (updateStatsOk st s w h len).stats.outOfOrderFrames
      = st.stats.outOfOrderFrames
        + (if s ≠ st.expectedSequence ∧ s ≠ 0 then 1 else 0) := by
  unfold updateStatsOk
  by_cases hc : s ≠ st.expectedSequence ∧ s ≠ 0 <;> simp [hc]

theorem updateStatsOk_expected (st : FrameDecoderState) (s w h len : Nat) :
    (updateStatsOk st s w h len).expectedSequence = (s + 1) % U64_MOD := rfl

theorem decodeRun_outOfOrder (frames : List (Nat × Nat × Nat × Nat))
    (st : FrameDecoderState) :
    (decodeRun st frames).stats.outOfOrderFrames
      = st.stats.outOfOrderFrames
        + specOutOfOrderCount st.expectedSequence (frames.map fun f => f.1) := by
  induction frames generalizing st with
  | nil => simp [decodeRun, specOutOfOrderCount]
  | cons f rest ih =>
    obtain ⟨s, w, h, len⟩ := f
    show (decodeRun (updateStatsOk st s w h len) rest).stats.outOfOrderFrames = _
    rw [ih]
    rw [updateStatsOk_outOfOrder, updateStatsOk_expected]
    simp only [List.map_cons, specOutOfOrderCount]
    omega

/-- C5, amended.  On every successful decode `out_of_order_frames` is
incremented exactly when the frame's sequence differs from the expected
sequence and the sequence itself is nonzero (the source guards on
`sequence != 0`, not on `expected != 0` as the claim states), and the
expected sequence then advances to sequence + 1 (mod 2^64); consequently
after decoding any list of frames starting from the fresh decoder the counter
equals the number of indices whose sequence differed from the running
expected value and was nonzero, where expected starts at 1. -/
theorem decoder_out_of_order_accounting
    (frames : List (Nat × Nat × Nat × Nat)) :
    (decodeRun FrameDecoderState.new frames).stats.outOfOrderFrames
      = specOutOfOrderCount 1 (frames.map fun f => f.1) ∧
    (∀ (st : FrameDecoderState) (s w h len : Nat),
      (updateStatsOk st s w h len).stats.outOfOrderFrames
        = st.stats.outOfOrderFrames
          + (if s ≠ st.expectedSequence ∧ s ≠ 0 then 1 else 0) ∧
      (updateStatsOk st s w h len).expectedSequence = (s + 1) % U64_MOD) := by
  constructor
  · rw [decodeRun_outOfOrder]
    simp [FrameDecoderState.new, DecoderStats.zero]
  · intro st s w h len
    exact ⟨updateStatsOk_outOfOrder st s w h len,
           updateStatsOk_expected st s w h len⟩

/-! ## Frame encoding and decoding (src/desktop/types.rs, encoder.rs,
decoder.rs)

The still-image compression library (the image crate) is an external
collaborator; its decoder and encoders are explicit parameters.  Its one
guarantee used below is that `to_rgba8().into_raw()` yields exactly
width·height·4 bytes for the decoded image's own dimensions. -/

/-- `enum FrameFormat` from src/desktop/types.rs. -/
inductive FrameFormat where
  | raw
  | jpeg
  | png
  | webp
deriving DecidableEq, Repr

/-- `struct Frame` (the `Instant` timestamp is outside the model). -/
structure Frame where
  width : Nat
  height : Nat
  data : List Nat
  sequence : Nat
deriving DecidableEq, Repr

/-- `struct EncodedFrame`. -/
structure EncodedFrame where
  width : Nat
  height : Nat
  data : List Nat
  sequence : Nat
  format : FrameFormat
  originalSize : Nat
deriving DecidableEq, Repr

/-- An RGBA image as returned by the external image library's
`to_rgba8()`: the pixel buffer holds exactly width·height·4 bytes. -/
structure RgbaImage where
  width : Nat
  height : Nat
  pixels : List Nat
  size_eq : pixels.length = width * height * 4

/-- The external guessed-format image decoder composed with the RGBA
conversion (`image::io::Reader::with_guessed_format().decode()` then
`to_rgba8()`), shared by `decode_jpeg` and `decode_png`. -/
def ImageDecoder : Type := List Nat → Option RgbaImage

/-- The payload half of `FrameEncoder::decode` / `FrameDecoder::
decode_internal`: Raw passes the payload through unchanged (no size check);
Jpeg and Png decode via the image reader; WebP is unimplemented and attempts
JPEG decoding. -/
def decodePayload (dec : ImageDecoder) (format : FrameFormat)
    (data : List Nat) : Option (List Nat) :=
  match format with
  | .raw => some data
  | .jpeg => (dec data).map fun img => img.pixels
  | .png => (dec data).map fun img => img.pixels
  | .webp => (dec data).map fun img => img.pixels

/-- `FrameEncoder::decode` and `FrameDecoder::decode_internal`: decode the
payload by format and build a frame carrying the header dimensions and
sequence of the encoded frame. -/
def decodeFrame (dec : ImageDecoder) (encoded : EncodedFrame) : Option Frame :=
  (decodePayload dec encoded.format encoded.data).map fun d =>
    ⟨encoded.width, encoded.height, d, encoded.sequence⟩

/-- `ImageBuffer::from_raw` for RGBA: succeeds exactly when the container
holds width·height·4 bytes (the encoder always passes exact-size buffers). -/
def imageBufferFromRaw (w h : Nat) (data : List Nat) : Option RgbaImage :=
  if hl : data.length = w * h * 4 then some ⟨w, h, data, hl⟩ else none

/-- The external JPEG encoder (given a quality and the RGBA image; the
RGBA→RGB conversion preserves dimensions) and PNG encoder. -/
structure ImageEncoders where
  jpegEncode : Nat → RgbaImage → Option (List Nat)
  pngEncode : RgbaImage → Option (List Nat)

/-- `struct FrameEncoder`: format and quality. -/
structure FrameEncoder where
  format : FrameFormat
  quality : Nat
deriving DecidableEq, Repr

/-- `FrameEncoder::encode_raw`: passthrough of the RGBA bytes. -/
def FrameEncoder.encodeRaw (frame : Frame) : Option (List Nat) :=
  some frame.data

/-- `FrameEncoder::encode_jpeg`: build the image buffer, then run the
external JPEG encoder at the configured quality. -/
def FrameEncoder.encodeJpeg (enc : FrameEncoder) (ext : ImageEncoders)
    (frame : Frame) : Option (List Nat) :=
  (imageBufferFromRaw frame.width frame.height frame.data).bind fun img =>
    ext.jpegEncode enc.quality img

/-- `FrameEncoder::encode_png`. -/
def FrameEncoder.encodePng (ext : ImageEncoders) (frame : Frame) :
    Option (List Nat) :=
  (imageBufferFromRaw frame.width frame.height frame.data).bind ext.pngEncode

/-- `FrameEncoder::encode`: dispatch on the configured format (WebP falls
back to JPEG), then build the `EncodedFrame` carrying the frame's dimensions,
sequence and original byte size. -/
def FrameEncoder.encode (enc : FrameEncoder) (ext : ImageEncoders)
    (frame : Frame) : Option EncodedFrame :=
  let encodedData : Option (List Nat) :=
    match enc.format with
    | .raw => FrameEncoder.encodeRaw frame
    | .jpeg => enc.encodeJpeg ext frame
    | .png => FrameEncoder.encodePng ext frame
    | .webp => enc.encodeJpeg ext frame
  encodedData.map fun d =>
    ⟨frame.width, frame.height, d, frame.sequence, enc.format,
     frame.data.length⟩

theorem decodePayload_cases {dec : ImageDecoder} {format : FrameFormat}
    {data d : List Nat} (h : decodePayload dec format data = some d) :
    (format = .raw ∧ d = data) ∨
    (format ≠ .raw ∧ ∃ img : RgbaImage,
      dec data = some img ∧ d = img.pixels) := by
  cases format with
  | raw =>
    simp [decodePayload] at h
    exact .inl ⟨rfl, h.symm⟩
  | jpeg =>
    simp [decodePayload] at h
    obtain ⟨img, h1, h2⟩ := h
    exact .inr ⟨by simp, img, h1, h2.symm⟩
  | png =>
    simp [decodePayload] at h
    obtain ⟨img, h1, h2⟩ := h
    exact .inr ⟨by simp, img, h1, h2.symm⟩
  | webp =>
    simp [decodePayload] at h
    obtain ⟨img, h1, h2⟩ := h
    exact .inr ⟨by simp, img, h1, h2.symm⟩

theorem decodeFrame_some {dec : ImageDecoder} {e : EncodedFrame} {f : Frame}
    (h : decodeFrame dec e = some f) :
    f.width = e.width ∧ f.height = e.height ∧ f.sequence = e.sequence ∧
    decodePayload dec e.format e.data = some f.data := by
  unfold decodeFrame at h
  cases hp : decodePayload dec e.format e.data with
  | none => rw [hp] at h; simp at h
  | some d =>
    rw [hp] at h
    have hf : (⟨e.width, e.height, d, e.sequence⟩ : Frame) = f := by
      simpa using h
    subst hf
    refine ⟨rfl, rfl, rfl, ?_⟩
    set_option linter.unnecessarySimpa false in
    simpa using hp

/-- C6, counterexample.  The claim says every accepted frame decodes to an
RGBA buffer of width·height·4 bytes, but the Raw path passes the payload
through without any size check: a Raw frame declaring 1×1 with an empty
payload is accepted and yields 0 bytes instead of 4. -/
theorem decode_rgba_size_counterexample :
    decodeFrame (fun _ => none) ⟨1, 1, [], 5, .raw, 0⟩ = some ⟨1, 1, [], 5⟩ ∧
    ([] : List Nat).length ≠ 1 * 1 * 4 := by
  exact ⟨rfl, by decide⟩

/-- C6, amended.  For every `EncodedFrame` that decode accepts: on the Raw
path the returned data is the payload unchanged (so its length equals
width·height·4 only if the input already had that length); on the Jpeg, Png
and WebP paths the returned data is the RGBA conversion of the image decoded
from the payload, whose length is 4·(decoded image width·height) — the
decoded image's own dimensions, which the code never checks against the
frame header. -/
theorem decode_rgba_buffer (dec : ImageDecoder) (e : EncodedFrame) (f : Frame)
    (h : decodeFrame dec e = some f) :
    f.width = e.width ∧ f.height = e.height ∧
    (e.format = .raw → f.data = e.data) ∧
    (e.format ≠ .raw → ∃ img : RgbaImage,
      dec e.data = some img ∧ f.data = img.pixels ∧
      f.data.length = img.width * img.height * 4) := by
  obtain ⟨hw, hh, _, hp⟩ := decodeFrame_some h
  refine ⟨hw, hh, ?_, ?_⟩
  · intro hraw
    rcases decodePayload_cases hp with ⟨_, hd⟩ | ⟨hne, _⟩
    · exact hd
    · exact absurd hraw hne
  · intro hne
    rcases decodePayload_cases hp with ⟨hraw, _⟩ | ⟨_, img, h1, h2⟩
    · exact absurd hraw hne
    · exact ⟨img, h1, h2, by rw [h2]; exact img.size_eq⟩

/-- A constant image decoder returning a fixed 1×1 RGBA image, used to
witness the decode theorems on a compressed-format frame. -/
def constImageDecoder : ImageDecoder :=
  fun _ => some ⟨1, 1, [0, 0, 0, 0], rfl⟩

theorem decode_rgba_buffer_witness :
    (1 : Nat) = 1 ∧ (1 : Nat) = 1 ∧
    (FrameFormat.jpeg = .raw → ([0, 0, 0, 0] : List Nat) = [9]) ∧
    (FrameFormat.jpeg ≠ .raw → ∃ img : RgbaImage,
      constImageDecoder [9] = some img ∧ ([0, 0, 0, 0] : List Nat) = img.pixels ∧
      ([0, 0, 0, 0] : List Nat).length = img.width * img.height * 4) :=
  decode_rgba_buffer constImageDecoder ⟨1, 1, [9], 3, .jpeg, 0⟩
    ⟨1, 1, [0, 0, 0, 0], 3⟩ rfl

/-- C7.  Whenever encoding a well-formed frame (RGBA buffer of exactly
width·height·4 bytes) succeeds and decoding the result succeeds, the decoded
frame carries the encoded frame's width and height; and for the Raw format
the decoded data is the original frame data bit-exactly — moreover on the
Raw path both encode and decode always succeed. -/
theorem encode_decode_consistency (enc : FrameEncoder) (ext : ImageEncoders)
    (dec : ImageDecoder) (frame : Frame)
    (hsize : frame.data.length = frame.width * frame.height * 4)
    (e : EncodedFrame) (henc : enc.encode ext frame = some e)
    (f2 : Frame) (hdec : decodeFrame dec e = some f2) :
    (f2.width = e.width ∧ f2.height = e.height) ∧
    (enc.format = .raw → f2.data = frame.data) ∧
    (∀ (g : Frame) (q : Nat),
      (FrameEncoder.mk .raw q).encode ext g
        = some ⟨g.width, g.height, g.data, g.sequence, .raw, g.data.length⟩ ∧
      decodeFrame dec ⟨g.width, g.height, g.data, g.sequence, .raw,
          g.data.length⟩
        = some ⟨g.width, g.height, g.data, g.sequence⟩) := by
  obtain ⟨hw, hh, _, hp⟩ := decodeFrame_some hdec
  refine ⟨⟨hw, hh⟩, ?_, ?_⟩
  · intro hraw
    have hef : e.format = .raw ∧ e.data = frame.data := by
      unfold FrameEncoder.encode at henc
      rw [hraw] at henc
      simp [FrameEncoder.encodeRaw] at henc
      cases henc
      exact ⟨rfl, rfl⟩
    rcases decodePayload_cases hp with ⟨_, hd⟩ | ⟨hne, _⟩
    · rw [hd, hef.2]
    · exact absurd hef.1 hne
  · intro g q
    exact ⟨rfl, rfl⟩

theorem encode_decode_consistency_witness :
    ((3 : Nat) = 3 ∧ (1 : Nat) = 1) ∧
    (FrameFormat.raw = .raw →
      ([1, 2, 3, 4, 5, 6, 7, 8, 9, 10, 11, 12] : List Nat)
        = [1, 2, 3, 4, 5, 6, 7, 8, 9, 10, 11, 12]) ∧
    (∀ (g : Frame) (q : Nat),
      (FrameEncoder.mk .raw q).encode ⟨fun _ _ => none, fun _ => none⟩ g
        = some ⟨g.width, g.height, g.data, g.sequence, .raw, g.data.length⟩ ∧
      decodeFrame constImageDecoder ⟨g.width, g.height, g.data, g.sequence,
          .raw, g.data.length⟩
        = some ⟨g.width, g.height, g.data, g.sequence⟩) :=
  encode_decode_consistency ⟨.raw, 80⟩ ⟨fun _ _ => none, fun _ => none⟩
    constImageDecoder ⟨3, 1, [1, 2, 3, 4, 5, 6, 7, 8, 9, 10, 11, 12], 7⟩
    (by decide)
    ⟨3, 1, [1, 2, 3, 4, 5, 6, 7, 8, 9, 10, 11, 12], 7, .raw, 12⟩ rfl
    ⟨3, 1, [1, 2, 3, 4, 5, 6, 7, 8, 9, 10, 11, 12], 7⟩ rfl

/-! ## Device IDs (src/security/id.rs)

Strings are modelled as lists of character code points (digits 48–57,
space 32, plus 43). -/

def DEVICE_ID_MIN : Nat := 100000000

def DEVICE_ID_MAX : Nat := 999999999

def SPACE_CODE : Nat := 32

def ZERO_CODE : Nat := 48

def PLUS_CODE : Nat := 43

def isDigitCode (c : Nat) : Bool := 48 ≤ c && c ≤ 57

/-- `DeviceId::from_u32`: the 9-digit range check. -/
def deviceIdFromU32 (id : Nat) : Option Nat :=
  if id < DEVICE_ID_MIN ∨ id > DEVICE_ID_MAX then none else some id

/-- The decimal digits of n, most significant first, zero-padded to the given
width; models the digit sequence of `format!("{:09}", n)` for n below
10^width (every DeviceId is below 10^9 by construction). -/
def toPaddedDecimal (n width : Nat) : List Nat :=
  match width with
  | 0 => []
  | w + 1 => toPaddedDecimal (n / 10) w ++ [n % 10]

/-- `impl fmt::Display for DeviceId`: `format!("{:09}", id)` as code
points. -/
def DeviceId.display (id : Nat) : List Nat :=
  (toPaddedDecimal id 9).map (· + ZERO_CODE)

/-- `DeviceId::format_with_spaces`: the three 3-character slices of the
9-digit rendering joined by single spaces. -/
def DeviceId.formatWithSpaces (id : Nat) : List Nat :=
  let s := DeviceId.display id
  s.take 3 ++ [SPACE_CODE] ++ (s.drop 3).take 3 ++ [SPACE_CODE] ++ s.drop 6

/-- `str::parse::<u32>`: an optional leading plus sign, then at least one
digit and nothing else, with the value required to fit in a u32 (the parse
fails on overflow, which for a digit string is exactly value ≥ 2^32). -/
def parseU32 (cs : List Nat) : Option Nat :=
  let ds := if cs.head? = some PLUS_CODE then cs.tail else cs
  if ds = [] then none
  else if ds.all isDigitCode then
    let v := ds.foldl (fun a c => a * 10 + (c - ZERO_CODE)) 0
    if v < U32_MOD then some v else none
  else none

/-- `impl FromStr for DeviceId`: `s.replace(' ', "")`, `parse::<u32>()`,
then `DeviceId::from_u32`. -/
def DeviceId.fromStr (cs : List Nat) : Option Nat :=
  (parseU32 (cs.filter (fun c => c != SPACE_CODE))).bind deviceIdFromU32

theorem toPaddedDecimal_length (width : Nat) :
    ∀ n, (toPaddedDecimal n width).length = width := by
  induction width with
  | zero => intro n; rfl
  | succ w ih =>
    intro n
    show (toPaddedDecimal (n / 10) w ++ [n % 10]).length = w + 1
    simp [ih]

theorem toPaddedDecimal_lt_ten (width : Nat) :
    ∀ n, ∀ c ∈ toPaddedDecimal n width, c < 10 := by
  induction width with
  | zero => intro n c hc; simp [toPaddedDecimal] at hc
  | succ w ih =>
    intro n c hc
    show c < 10
    simp only [toPaddedDecimal, List.mem_append, List.mem_singleton] at hc
    rcases hc with hc | hc
    · exact ih (n / 10) c hc
    · rw [hc]; exact Nat.mod_lt n (by norm_num)

theorem toPaddedDecimal_foldl (width : Nat) :
    ∀ n acc, n < 10 ^ width →
      ((toPaddedDecimal n width).map (· + ZERO_CODE)).foldl
          (fun a c => a * 10 + (c - ZERO_CODE)) acc
        = acc * 10 ^ width + n := by
  induction width with
  | zero =>
    intro n acc hn
    interval_cases n
    simp [toPaddedDecimal]
  | succ w ih =>
    intro n acc hn
    show ((toPaddedDecimal (n / 10) w ++ [n % 10]).map (· + ZERO_CODE)).foldl
        (fun a c => a * 10 + (c - ZERO_CODE)) acc = acc * 10 ^ (w + 1) + n
    rw [List.map_append, List.foldl_append]
    rw [ih (n / 10) acc (by
      have : 10 ^ (w + 1) = 10 ^ w * 10 := by ring
      omega)]
    simp only [List.map_cons, List.map_nil, List.foldl_cons, List.foldl_nil]
    have hp : 10 ^ (w + 1) = 10 ^ w * 10 := by ring
    rw [hp]
    have hz : n % 10 + ZERO_CODE - ZERO_CODE = n % 10 := by omega
    rw [hz]
    have := Nat.div_add_mod n 10
    set q := acc * 10 ^ w with hq
    have : acc * (10 ^ w * 10) = q * 10 := by rw [hq]; ring
    rw [this]
    omega

theorem display_all_digits (v : Nat) :
    ∀ c ∈ DeviceId.display v, isDigitCode c = true := by
  intro c hc
  unfold DeviceId.display at hc
  simp only [List.mem_map] at hc
  obtain ⟨d, hd, hdc⟩ := hc
  have := toPaddedDecimal_lt_ten 9 v d hd
  simp only [isDigitCode, ZERO_CODE] at hdc ⊢
  rw [← hdc]
  simp only [Bool.and_eq_true, decide_eq_true_eq]
  omega

theorem parseU32_of_digits (ds : List Nat) (hne : ds ≠ [])
    (hall : ∀ c ∈ ds, isDigitCode c = true) (v : Nat)
    (hv : ds.foldl (fun a c => a * 10 + (c - ZERO_CODE)) 0 = v)
    (hlt : v < U32_MOD) : parseU32 ds = some v := by
  unfold parseU32
  have hplus : ¬ ds.head? = some PLUS_CODE := by
    intro hh
    cases ds with
    | nil => simp at hh
    | cons c t =>
      simp only [List.head?] at hh
      have := hall c (by simp)
      rw [Option.some.injEq] at hh
      rw [hh] at this
      simp [isDigitCode, PLUS_CODE] at this
  rw [if_neg hplus]
  rw [if_neg hne]
  rw [if_pos (List.all_eq_true.mpr hall)]
  simp only [hv]
  rw [if_pos hlt]

theorem filter_digits_eq_self {l : List Nat}
    (hall : ∀ c ∈ l, isDigitCode c = true) :
    l.filter (fun c => c != SPACE_CODE) = l := by
  apply List.filter_eq_self.mpr
  intro c hc
  have := hall c hc
  simp only [isDigitCode, Bool.and_eq_true, decide_eq_true_eq] at this
  simp only [bne_iff_ne, ne_eq, SPACE_CODE]
  omega

/-- C9.  DeviceId formatting round-trips: for every valid id v in
[100000000, 999999999], parsing the 9-digit rendering and parsing the
space-grouped rendering both give back v, and the space-grouped rendering
consists of exactly two spaces and nine digit characters. -/
theorem device_id_roundtrip (v : Nat)
    (h1 : DEVICE_ID_MIN ≤ v) (h2 : v ≤ DEVICE_ID_MAX) :
    DeviceId.fromStr (DeviceId.display v) = some v ∧
    DeviceId.fromStr (DeviceId.formatWithSpaces v) = some v ∧
    (DeviceId.formatWithSpaces v).countP (fun c => c == SPACE_CODE) = 2 ∧
    (DeviceId.formatWithSpaces v).countP isDigitCode = 9 ∧
    (DeviceId.formatWithSpaces v).length = 11 := by
  have hmin : (100000000 : Nat) ≤ v := h1
  have hmax : v ≤ 999999999 := h2
  have hlt9 : v < 10 ^ 9 := by norm_num at hmax ⊢; omega
  have hltu : v < U32_MOD := by
    have : (999999999 : Nat) < U32_MOD := by decide
    omega
  have hlen : (DeviceId.display v).length = 9 := by
    unfold DeviceId.display
    simp [toPaddedDecimal_length]
  have hall := display_all_digits v
  have hfold : (DeviceId.display v).foldl
      (fun a c => a * 10 + (c - ZERO_CODE)) 0 = v := by
    have := toPaddedDecimal_foldl 9 v 0 hlt9
    unfold DeviceId.display
    simpa using this
  have hparse : parseU32 (DeviceId.display v) = some v :=
    parseU32_of_digits _ (by intro hh; rw [hh] at hlen; simp at hlen)
      hall v hfold hltu
  have hfrom : deviceIdFromU32 v = some v := by
    unfold deviceIdFromU32
    rw [if_neg (by unfold DEVICE_ID_MIN DEVICE_ID_MAX; omega)]
  have hrecomb : (DeviceId.display v).take 3
      ++ ((DeviceId.display v).drop 3).take 3
      ++ (DeviceId.display v).drop 6 = DeviceId.display v := by
    have h36 : ((DeviceId.display v).drop 3).drop 3
        = (DeviceId.display v).drop 6 := by
      rw [List.drop_drop]
    rw [← h36]
    rw [List.append_assoc, List.take_append_drop, List.take_append_drop]
  have hfws : (DeviceId.formatWithSpaces v).filter (fun c => c != SPACE_CODE)
      = DeviceId.display v := by
    unfold DeviceId.formatWithSpaces
    simp only [List.filter_append]
    have ht1 : ((DeviceId.display v).take 3).filter
        (fun c => c != SPACE_CODE) = (DeviceId.display v).take 3 :=
      filter_digits_eq_self (fun c hc => hall c (List.take_subset 3 _ hc))
    have ht2 : (((DeviceId.display v).drop 3).take 3).filter
        (fun c => c != SPACE_CODE) = ((DeviceId.display v).drop 3).take 3 :=
      filter_digits_eq_self (fun c hc =>
        hall c (List.drop_subset 3 _ (List.take_subset 3 _ hc)))
    have ht3 : ((DeviceId.display v).drop 6).filter
        (fun c => c != SPACE_CODE) = (DeviceId.display v).drop 6 :=
      filter_digits_eq_self (fun c hc => hall c (List.drop_subset 6 _ hc))
    have hsp : ([SPACE_CODE].filter (fun c => c != SPACE_CODE))
        = ([] : List Nat) := by simp
    rw [ht1, ht2, ht3, hsp]
    simpa using hrecomb
  refine ⟨?_, ?_, ?_, ?_, ?_⟩
  · unfold DeviceId.fromStr
    rw [filter_digits_eq_self hall, hparse]
    simpa using hfrom
  · unfold DeviceId.fromStr
    rw [hfws, hparse]
    simpa using hfrom
  · unfold DeviceId.formatWithSpaces
    simp only [List.countP_append]
    have hz1 : ((DeviceId.display v).take 3).countP
        (fun c => c == SPACE_CODE) = 0 := by
      apply List.countP_eq_zero.mpr
      intro c hc
      have := hall c (List.take_subset 3 _ hc)
      simp only [isDigitCode, Bool.and_eq_true, decide_eq_true_eq] at this
      simp only [beq_iff_eq, SPACE_CODE]
      omega
    have hz2 : (((DeviceId.display v).drop 3).take 3).countP
        (fun c => c == SPACE_CODE) = 0 := by
      apply List.countP_eq_zero.mpr
      intro c hc
      have := hall c (List.drop_subset 3 _ (List.take_subset 3 _ hc))
      simp only [isDigitCode, Bool.and_eq_true, decide_eq_true_eq] at this
      simp only [beq_iff_eq, SPACE_CODE]
      omega
    have hz3 : ((DeviceId.display v).drop 6).countP
        (fun c => c == SPACE_CODE) = 0 := by
      apply List.countP_eq_zero.mpr
      intro c hc
      have := hall c (List.drop_subset 6 _ hc)
      simp only [isDigitCode, Bool.and_eq_true, decide_eq_true_eq] at this
      simp only [beq_iff_eq, SPACE_CODE]
      omega
    rw [hz1, hz2, hz3]
    simp
  · unfold DeviceId.formatWithSpaces
    simp only [List.countP_append]
    have hsp0 : ([SPACE_CODE] : List Nat).countP isDigitCode = 0 := by
      simp [isDigitCode, SPACE_CODE]
    have hc1 : ((DeviceId.display v).take 3).countP isDigitCode = 3 := by
      rw [List.countP_eq_length.mpr
        (fun c hc => hall c (List.take_subset 3 _ hc))]
      rw [List.length_take, hlen]
      decide
    have hc2 : (((DeviceId.display v).drop 3).take 3).countP isDigitCode
        = 3 := by
      rw [List.countP_eq_length.mpr
        (fun c hc => hall c (List.drop_subset 3 _ (List.take_subset 3 _ hc)))]
      rw [List.length_take, List.length_drop, hlen]
      decide
    have hc3 : ((DeviceId.display v).drop 6).countP isDigitCode = 3 := by
      rw [List.countP_eq_length.mpr
        (fun c hc => hall c (List.drop_subset 6 _ hc))]
      rw [List.length_drop, hlen]
    rw [hc1, hc2, hc3, hsp0]
  · unfold DeviceId.formatWithSpaces
    simp only [List.length_append, List.length_take, List.length_drop, hlen]
    rfl

theorem device_id_roundtrip_witness :
    DeviceId.fromStr (DeviceId.display 123456789) = some 123456789 ∧
    DeviceId.fromStr (DeviceId.formatWithSpaces 123456789) = some 123456789 ∧
    (DeviceId.formatWithSpaces 123456789).countP
      (fun c => c == SPACE_CODE) = 2 ∧
    (DeviceId.formatWithSpaces 123456789).countP isDigitCode = 9 ∧
    (DeviceId.formatWithSpaces 123456789).length = 11 :=
  device_id_roundtrip 123456789 (by decide) (by decide)

/-! ## Wire protocol (src/network/protocol.rs) -/

/-- `CURRENT_PROTOCOL_VERSION`. -/
def CURRENT_PROTOCOL_VERSION : Nat := 1

/-- `enum RejectReason`. -/
inductive RejectReason where
  | userDenied
  | invalidPassword
  | invalidId
  | alreadyConnected
  | accountLocked
  | unsupportedVersion
deriving DecidableEq, Repr

/-- `enum Capability`. -/
inductive Capability where
  | remoteControl
  | clipboardSync
  | fileTransfer
deriving DecidableEq, Repr

/-- `struct ConnectionRequest`. -/
structure ConnectionRequest where
  protocolVersion : Nat
  clientId : Nat
  clientName : String
  hostId : Nat
  passwordHash : Option (List Nat)
  requestedCapabilities : List Capability
deriving DecidableEq, Repr

/-- `struct DesktopInfo` (u16 widths, u8 count). -/
structure DesktopInfo where
  screenWidth : Nat
  screenHeight : Nat
  screenCount : Nat
deriving DecidableEq, Repr

/-- `DesktopInfo::current()`: hardcoded placeholder values, independent of
the actual display. -/
def DesktopInfo.current : DesktopInfo :=
  { screenWidth := 1920, screenHeight := 1080, screenCount := 1 }

/-- `struct ConnectionAccept`. -/
structure ConnectionAccept where
  sessionId : List Nat
  hostName : String
  hostCapabilities : List Capability
  desktopInfo : DesktopInfo
deriving DecidableEq, Repr

/-- `ConnectionAccept::new`, with the 16 random session-id bytes supplied by
the caller (randomness is external). -/
def ConnectionAccept.new (sessionId : List Nat) (hostName : String)
    (info : DesktopInfo) : ConnectionAccept :=
  { sessionId := sessionId,
    hostName := hostName,
    hostCapabilities := [.remoteControl, .clipboardSync],
    desktopInfo := info }

/-- `struct ConnectionReject`. -/
structure ConnectionReject where
  reason : RejectReason
  message : Option String
deriving DecidableEq, Repr

/-- `enum DisconnectReason`. -/
inductive DisconnectReason where
  | userInitiated
  | sessionTimeout
  | error
deriving DecidableEq, Repr

/-- `struct Disconnect`. -/
structure Disconnect where
  reason : DisconnectReason
deriving DecidableEq, Repr

/-- `struct Heartbeat`. -/
structure Heartbeat where
  timestamp : Nat
deriving DecidableEq, Repr

/-- `enum ErrorCode`. -/
inductive ErrorCode where
  | unknownError
  | protocolViolation
  | unsupportedMessage
  | invalidPayload
  | permissionDenied
  | resourceExhausted
deriving DecidableEq, Repr

/-- `struct ErrorMessage`. -/
structure ErrorMessage where
  errorCode : ErrorCode
  message : String
deriving DecidableEq, Repr

/-- `enum FrameFormat` as declared in protocol.rs (distinct from the desktop
layer's FrameFormat). -/
inductive ProtocolFrameFormat where
  | jpeg
  | png
  | raw
deriving DecidableEq, Repr

/-- `struct ScreenFrameData`. -/
structure ScreenFrameData where
  sequence : Nat
  width : Nat
  height : Nat
  format : ProtocolFrameFormat
  data : List Nat
  timestamp : Nat
deriving DecidableEq, Repr

/-- `enum KeyboardEventTypeData`. -/
inductive KeyboardEventTypeData where
  | keyPress
  | keyRelease
deriving DecidableEq, Repr

/-- `struct KeyboardEventData`. -/
structure KeyboardEventData where
  eventType : KeyboardEventTypeData
  key : Nat
  timestamp : Nat
deriving DecidableEq, Repr

/-- `enum MouseEventTypeData`. -/
inductive MouseEventTypeData where
  | move (x y : Int)
  | buttonPress (button : Nat)
  | buttonRelease (button : Nat)
  | wheel (dx dy : Int)
deriving DecidableEq, Repr

/-- `struct MouseEventData`. -/
structure MouseEventData where
  eventType : MouseEventTypeData
  timestamp : Nat
deriving DecidableEq, Repr

/-- `enum MessagePayload`: the payload variants of the top-level protocol
message. -/
inductive MessagePayload where
  | connectionRequest (req : ConnectionRequest)
  | connectionAccept (acc : ConnectionAccept)
  | connectionReject (rej : ConnectionReject)
  | disconnect (d : Disconnect)
  | heartbeat (hb : Heartbeat)
  | err (em : ErrorMessage)
  | screenFrame (sf : ScreenFrameData)
  | keyboardEvent (ke : KeyboardEventData)
  | mouseEvent (me : MouseEventData)
deriving DecidableEq, Repr

/-! ## Inbound connection handling (src/network/listener.rs,
src/network/manager.rs)

The QUIC transport, the control substream and the event channel are external
I/O; the model captures the decision logic applied to the first control
message of an inbound connection.  `PasswordManager::is_password_set` is a
file-existence test and enters as the boolean `passwordRequired`. -/

/-- `struct IncomingConnection` (listener.rs), without the socket address. -/
structure IncomingConnection where
  remoteDeviceId : Nat
  remoteName : String
  hasPassword : Bool
  passwordHash : Option (List Nat)
  connectionId : Nat
deriving DecidableEq, Repr

/-- The outcome of `ConnectionListener::handle_incoming_connection`: either
a `ConnectionReject` was sent and the connection closed, or the function
returned an error without sending a reject (non-request first message,
client id out of the valid device-id range), or the request passed the
listener's checks and is handed to the manager. -/
inductive ListenerResult where
  | rejectedAndClosed (reason : RejectReason) (message : Option String)
  | errorNoReject (message : String)
  | pending (incoming : IncomingConnection)
deriving DecidableEq, Repr

/-- `ConnectionListener::handle_incoming_connection` applied to the first
message read from the control stream: require a `ConnectionRequest`, gate on
the protocol version, then on the host id, then validate the client id. -/
def handleIncomingConnection (localDeviceId connectionId : Nat)
    (firstMsg : MessagePayload) : ListenerResult :=
  match firstMsg with
  | .connectionRequest req =>
    if req.protocolVersion ≠ CURRENT_PROTOCOL_VERSION then
      .rejectedAndClosed .unsupportedVersion
        (some ("Expected protocol version "
          ++ toString CURRENT_PROTOCOL_VERSION ++ ", got "
          ++ toString req.protocolVersion))
    else if req.hostId ≠ localDeviceId then
      .rejectedAndClosed .invalidId (some "Host ID does not match")
    else
      match deviceIdFromU32 req.clientId with
      | none => .errorNoReject "invalid client device id"
      | some rid =>
        .pending ⟨rid, req.clientName, req.passwordHash.isSome,
                  req.passwordHash, connectionId⟩
  | _ => .errorNoReject "Expected ConnectionRequest message"

/-- The outcome of the manager's inbound task for one incoming connection. -/
inductive ManagerInboundResult where
  | rejected (reason : RejectReason)
  | enqueued (remoteId : Nat) (remoteName : String) (hasPassword : Bool)
      (connectionId : Nat)
deriving DecidableEq, Repr

/-- The inbound-connection task body in `ConnectionManager::start`: when a
password is required (the hash file exists) and the request carries none,
reject with `InvalidPassword`; otherwise store the pending connection and
emit the `ConnectionRequest` event.  A supplied password hash is never
verified. -/
def managerHandleIncoming (passwordRequired : Bool)
    (inc : IncomingConnection) : ManagerInboundResult :=
  if passwordRequired && !inc.hasPassword then
    .rejected .invalidPassword
  else
    .enqueued inc.remoteDeviceId inc.remoteName inc.hasPassword
      inc.connectionId

/-- The end-to-end outcome of an inbound connection attempt. -/
inductive InboundOutcome where
  | rejected (reason : RejectReason)
  | closedNoReject
  | enqueued (remoteId : Nat) (remoteName : String) (hasPassword : Bool)
      (connectionId : Nat)
deriving DecidableEq, Repr

/-- The composed inbound path: the listener handshake followed by the
manager's password gate. -/
def processInbound (localDeviceId : Nat) (passwordRequired : Bool)
    (connectionId : Nat) (firstMsg : MessagePayload) : InboundOutcome :=
  match handleIncomingConnection localDeviceId connectionId firstMsg with
  | .rejectedAndClosed r _ => .rejected r
  | .errorNoReject _ => .closedNoReject
  | .pending inc =>
    match managerHandleIncoming passwordRequired inc with
    | .rejected r => .rejected r
    | .enqueued a b c d => .enqueued a b c d

/-- C1, counterexample.  A request carrying a password hash to a host that
requires a password is enqueued as pending — the host never calls
`verify(password_hash_file, presented_hash)`, so the claimed
`InvalidPassword` rejection on a failed verification cannot occur: the
outcome is the same whatever hash is presented and whatever password is
stored. -/
theorem inbound_password_verify_counterexample :
    processInbound 123456789 true 1
      (.connectionRequest ⟨1, 987654321, "client", 123456789,
        some (List.replicate 32 0), [.remoteControl, .clipboardSync]⟩)
      = .enqueued 987654321 "client" true 1 ∧
    InboundOutcome.enqueued 987654321 "client" true 1
      ≠ .rejected .invalidPassword := by
  exact ⟨rfl, by decide⟩

/-- The amended inbound decision, written from the specification side:
reject `UnsupportedVersion` on a version mismatch, `InvalidId` on a host-id
mismatch, close without a reject on an out-of-range client id, and reject
`InvalidPassword` exactly when a password is required and no hash was
supplied; otherwise enqueue the connection and emit the event.  A supplied
hash is accepted without verification. -/
def inboundSpec (localDeviceId : Nat) (passwordRequired : Bool)
    (connectionId : Nat) (req : ConnectionRequest) : InboundOutcome :=
  if req.protocolVersion ≠ CURRENT_PROTOCOL_VERSION then
    .rejected .unsupportedVersion
  else if req.hostId ≠ localDeviceId then
    .rejected .invalidId
  else if ¬ (DEVICE_ID_MIN ≤ req.clientId ∧ req.clientId ≤ DEVICE_ID_MAX) then
    .closedNoReject
  else if passwordRequired = true ∧ req.passwordHash = none then
    .rejected .invalidPassword
  else
    .enqueued req.clientId req.clientName req.passwordHash.isSome connectionId

/-- C1, amended.  The host's inbound decision on a first control message:
a `ConnectionRequest` is processed exactly as `inboundSpec` describes
(version gate, host-id gate, client-id validity, and a password-presence
check only — no verification of a supplied hash), and any other first
message closes the connection without a reject. -/
theorem inbound_decision (localDeviceId : Nat) (passwordRequired : Bool)
    (connectionId : Nat) (req : ConnectionRequest) :
    processInbound localDeviceId passwordRequired connectionId
        (.connectionRequest req)
      = inboundSpec localDeviceId passwordRequired connectionId req ∧
    (∀ msg : MessagePayload, (∀ r, msg ≠ .connectionRequest r) →
      processInbound localDeviceId passwordRequired connectionId msg
        = .closedNoReject) := by
  constructor
  · by_cases hv : req.protocolVersion ≠ CURRENT_PROTOCOL_VERSION
    · simp [processInbound, handleIncomingConnection, inboundSpec, hv]
    · have hv2 : req.protocolVersion = CURRENT_PROTOCOL_VERSION := by omega
      by_cases hh : req.hostId ≠ localDeviceId
      · simp [processInbound, handleIncomingConnection, inboundSpec, hv2, hh]
      · have hh2 : req.hostId = localDeviceId := by omega
        by_cases hr : req.clientId < DEVICE_ID_MIN ∨ req.clientId > DEVICE_ID_MAX
        · have hr2 : ¬ (DEVICE_ID_MIN ≤ req.clientId
              ∧ req.clientId ≤ DEVICE_ID_MAX) := by omega
          simp [processInbound, handleIncomingConnection, inboundSpec,
                deviceIdFromU32, hv2, hh2, hr, hr2]
        · have hr2 : DEVICE_ID_MIN ≤ req.clientId
              ∧ req.clientId ≤ DEVICE_ID_MAX := by omega
          by_cases hp : passwordRequired = true ∧ req.passwordHash = none
          · have hb : (passwordRequired && !req.passwordHash.isSome) = true := by
              rw [hp.1, hp.2]
              rfl
            simp [processInbound, handleIncomingConnection, inboundSpec,
                  managerHandleIncoming, deviceIdFromU32, hv2, hh2, hr, hr2,
                  hp, hb]
          · have hb : (passwordRequired && !req.passwordHash.isSome) = false := by
              cases hq : req.passwordHash with
              | none =>
                cases hpr : passwordRequired
                · rfl
                · exact absurd (And.intro hpr hq) hp
              | some h => simp [hq]
            simp [processInbound, handleIncomingConnection, inboundSpec,
                  managerHandleIncoming, deviceIdFromU32, hv2, hh2, hr, hr2,
                  hp, hb]
  · intro msg hmsg
    cases msg with
    | connectionRequest r => exact absurd rfl (hmsg r)
    | connectionAccept acc => rfl
    | connectionReject rej => rfl
    | disconnect d => rfl
    | heartbeat hb => rfl
    | err em => rfl
    | screenFrame sf => rfl
    | keyboardEvent ke => rfl
    | mouseEvent me => rfl

theorem inbound_decision_witness :
    processInbound 123456789 false 2
        (.connectionRequest ⟨1, 987654321, "client", 123456789, none, []⟩)
      = inboundSpec 123456789 false 2
          ⟨1, 987654321, "client", 123456789, none, []⟩ ∧
    processInbound 123456789 false 2 (.heartbeat ⟨0⟩) = .closedNoReject := by
  have h := inbound_decision 123456789 false 2
    ⟨1, 987654321, "client", 123456789, none, []⟩
  exact ⟨h.1, h.2 (.heartbeat ⟨0⟩) (fun r => by simp)⟩

/-! ## Accepting a pending connection (src/network/listener.rs,
src/network/manager.rs) -/

/-- `PendingConnection::accept`: the `ConnectionAccept` message it builds and
sends on the control stream (the session id is the fresh random value drawn
inside `ConnectionAccept::new`). -/
def PendingConnection.acceptResponse (sessionId : List Nat)
    (hostName : String) (info : DesktopInfo) : ConnectionAccept :=
  ConnectionAccept.new sessionId hostName info

/-- `ConnectionManager::accept_connection`: accepts the pending connection
with the configured device name and `DesktopInfo::current()`. -/
def ConnectionManager.acceptResponse (sessionId : List Nat)
    (deviceName : String) : ConnectionAccept :=
  PendingConnection.acceptResponse sessionId deviceName DesktopInfo.current

/-- C10.  Every `ConnectionAccept` produced by accepting a pending connection
carries `desktop_info = {screen_width: 1920, screen_height: 1080,
screen_count: 1}`, independent of the actual display, because
`DesktopInfo::current()` always returns these hardcoded values. -/
theorem accept_desktop_info_constant (sessionId : List Nat)
    (deviceName : String) :
    (ConnectionManager.acceptResponse sessionId deviceName).desktopInfo
      = { screenWidth := 1920, screenHeight := 1080, screenCount := 1 } ∧
    DesktopInfo.current
      = { screenWidth := 1920, screenHeight := 1080, screenCount := 1 } :=
  ⟨rfl, rfl⟩

end RemoteDesk
